import Mathlib

/-!
Verification of the category filtering and player-allocation engine of the
chess tournament results manager.

The engine is the `applyFilters` callback of `src/src/pages/Index.tsx`; the
data model is `src/types/tournament.ts`.  Rows (`TournamentData`) are
JavaScript objects mapping column names to string-or-number values; we embed
them as association lists preserving key order, so that structural equality
of rows coincides with equality of their `JSON.stringify` fingerprints (the
key the source uses for the global used-players set).  JavaScript numbers are
embedded as `JsNum` (finite rational, the two infinities, or NaN); the model
covers decimal numerals (optionally signed, with fraction and exponent) and
the `Infinity` spellings of `Number(string)` coercion, and prints integral
numbers the way `String(number)` does.  Hexadecimal numerals and the decimal
rendering of non-integral numbers are approximated; no claim below depends on
them.
-/

namespace Tournament

/-- A scalar cell value: `string | number` in the source. -/
inductive Value where
  | vStr : String → Value
  | vNum : Rat → Value
deriving DecidableEq, Repr

/-- A tournament row (`TournamentData`): an object, i.e. an ordered list of
column/value bindings with the key order JavaScript would serialize. -/
abbrev Row := List (String × Value)

/-- `filterType` of a `Filter`. -/
inductive FilterType where
  | equal
  | greater
  | less
  | contains
deriving DecidableEq, Repr

/-- A `Filter` of `src/types/tournament.ts`.  `filterValue` is `none` when the
field is absent (`undefined`/`null` in the source's defensive check). -/
structure Filter where
  filterColumn : String
  filterType : FilterType
  filterValue : Option Value
deriving DecidableEq, Repr

/-- The `type` field of a `Category`. -/
inductive CType where
  | Open
  | U18Boy
  | U18Girl
  | Custom
deriving DecidableEq, Repr

/-- A `Category` of `src/types/tournament.ts`.  `filters` is `none` when the
field is absent (the source guards `!category.filters`); `limit` is an
optional number (the source tests it for truthiness, so `0` behaves like
absent and a negative value reaches `Array.prototype.slice`). -/
structure Category where
  id : String
  name : String
  ctype : CType
  filters : Option (List Filter)
  allowRepetition : Bool
  priority : Int
  limit : Option Int
  players : List Row
deriving DecidableEq, Repr

/-- A JavaScript number as observed by `Number(...)` coercion and
comparison: finite value, positive or negative infinity, or NaN. -/
inductive JsNum where
  | nan
  | posInf
  | negInf
  | fin : Rat → JsNum
deriving DecidableEq, Repr

/-- ASCII lower-casing of one character (the case folding JavaScript's
`toLowerCase` performs on the ASCII range; all spec examples are ASCII). -/
def charToLower (c : Char) : Char :=
  if 65 ≤ c.toNat ∧ c.toNat ≤ 90 then Char.ofNat (c.toNat + 32) else c

/-- `String.prototype.toLowerCase` on the ASCII range. -/
def strToLower (s : String) : String := String.mk (s.data.map charToLower)

/-- JavaScript whitespace recognized by `Number(string)` trimming
(tab, line feed, vertical tab, form feed, carriage return, space). -/
def jsIsSpace (c : Char) : Bool :=
  c.toNat = 9 ∨ c.toNat = 10 ∨ c.toNat = 11 ∨ c.toNat = 12 ∨ c.toNat = 13 ∨ c.toNat = 32

/-- Trim leading and trailing whitespace. -/
def jsTrim (s : String) : String :=
  String.mk (((s.data.dropWhile jsIsSpace).reverse.dropWhile jsIsSpace).reverse)

/-- Numeric value of a digit string (most significant first). -/
def digitsVal (l : List Char) : Nat :=
  l.foldl (fun a c => a * 10 + (c.toNat - 48)) 0

/-- Apply an optional decimal exponent suffix to mantissa `m`; `pos` is the
exponent's sign, `l` the digits (which must be nonempty and exhaust the
input). -/
def expApply (m : Rat) (pos : Bool) (l : List Char) : Option Rat :=
  let ds := l.takeWhile Char.isDigit
  let r := l.dropWhile Char.isDigit
  if ds.isEmpty || !r.isEmpty then none
  else if pos then some (m * (10 : Rat) ^ digitsVal ds)
  else some (m / (10 : Rat) ^ digitsVal ds)

/-- Parse the exponent part (`e`/`E`, optional sign, digits) after mantissa
`m`; an empty remainder yields `m` itself. -/
def parseExp (m : Rat) : List Char → Option Rat
  | [] => some m
  | c :: rest =>
    if c = 'e' ∨ c = 'E' then
      match rest with
      | [] => none
      | c2 :: r2 =>
        if c2 = '+' then expApply m true r2
        else if c2 = '-' then expApply m false r2
        else expApply m true rest
    else none

/-- Parse an unsigned decimal numeral `digits [. digits] [exp]` (at least one
digit somewhere), consuming the whole input. -/
def parseUnsigned (l : List Char) : Option Rat :=
  let ip := l.takeWhile Char.isDigit
  let r1 := l.dropWhile Char.isDigit
  match r1 with
  | [] => if ip.isEmpty then none else some (digitsVal ip : Rat)
  | c :: r2 =>
    if c = '.' then
      let fp := r2.takeWhile Char.isDigit
      let r3 := r2.dropWhile Char.isDigit
      if ip.isEmpty && fp.isEmpty then none
      else parseExp ((digitsVal ip : Rat) + (digitsVal fp : Rat) / (10 : Rat) ^ fp.length) r3
    else if ip.isEmpty then none
    else parseExp (digitsVal ip : Rat) r1

/-- JavaScript `Number(string)`: trimmed empty string is `0`, the `Infinity`
spellings are infinite, a signed decimal numeral is its value, anything else
is NaN. -/
def jsStringToNumber (s : String) : JsNum :=
  let t := jsTrim s
  if t = "" then JsNum.fin 0
  else if t = "Infinity" ∨ t = "+Infinity" then JsNum.posInf
  else if t = "-Infinity" then JsNum.negInf
  else
    match t.toList with
    | [] => JsNum.nan
    | c :: rest =>
      if c = '+' then
        match parseUnsigned rest with
        | some q => JsNum.fin q
        | none => JsNum.nan
      else if c = '-' then
        match parseUnsigned rest with
        | some q => JsNum.fin (-q)
        | none => JsNum.nan
      else
        match parseUnsigned (c :: rest) with
        | some q => JsNum.fin q
        | none => JsNum.nan

/-- `String(number)`: integral values print with no decimal point; the
rendering of non-integral values is approximated (no claim depends on it). -/
def numToString (q : Rat) : String :=
  if q.den = 1 then toString q.num else toString q

/-- `String(x)` for a cell or filter value; `none` is JavaScript `undefined`,
which stringifies to `"undefined"`. -/
def jsString : Option Value → String
  | none => "undefined"
  | some (Value.vStr s) => s
  | some (Value.vNum q) => numToString q

/-- `Number(x)` for a cell or filter value; `undefined` coerces to NaN.
(The source only applies this after its empty/`null` guard, so the `null`
case, which JavaScript would coerce to `0`, is unreachable.) -/
def jsNumber : Option Value → JsNum
  | none => JsNum.nan
  | some (Value.vNum q) => JsNum.fin q
  | some (Value.vStr s) => jsStringToNumber s

/-- JavaScript `<` on numbers: any comparison involving NaN is false. -/
def jsLt : JsNum → JsNum → Bool
  | JsNum.fin a, JsNum.fin b => decide (a < b)
  | JsNum.fin _, JsNum.posInf => true
  | JsNum.negInf, JsNum.fin _ => true
  | JsNum.negInf, JsNum.posInf => true
  | _, _ => false

/-- JavaScript `>` on numbers. -/
def jsGt (a b : JsNum) : Bool := jsLt b a

/-- `String.prototype.includes`: substring test. -/
def jsIncludes (s t : String) : Bool := decide (t.toList <:+: s.toList)

/-- `row[col]`: object property lookup, `none` when the key is absent. -/
def lookupRow (row : Row) (col : String) : Option Value := row.lookup col

/-- The guard `filterValue === '' || filterValue === undefined ||
filterValue === null` that makes a filter a wildcard. -/
def isEmptyFV : Option Value → Bool
  | none => true
  | some (Value.vStr s) => s == ""
  | some (Value.vNum _) => false

/-- The `switch (f.filterType)` of `applyFilters`: evaluate one filter
against one row (only reached for non-wildcard `filterValue`). -/
def evalFilterCore (row : Row) (f : Filter) : Bool :=
  match f.filterType with
  | FilterType.equal =>
      strToLower (jsString (lookupRow row f.filterColumn))
        == strToLower (jsString f.filterValue)
  | FilterType.greater =>
      jsGt (jsNumber (lookupRow row f.filterColumn)) (jsNumber f.filterValue)
  | FilterType.less =>
      jsLt (jsNumber (lookupRow row f.filterColumn)) (jsNumber f.filterValue)
  | FilterType.contains =>
      jsIncludes (strToLower (jsString (lookupRow row f.filterColumn)))
        (strToLower (jsString f.filterValue))

/-- The `for (const f of category.filters)` loop with early `break`:
a row matches when at least one non-wildcard filter evaluates true. -/
def rowMatchesAnyFilter (row : Row) (fs : List Filter) : Bool :=
  fs.any (fun f => !isEmptyFV f.filterValue && evalFilterCore row f)

/-- `matchingPlayers` of the non-Open branch of `applyFilters`: rows matching
the category's filters; a missing or empty filter list matches nothing. -/
def matchingPlayers (d : List Row) (c : Category) : List Row :=
  d.filter (fun row =>
    match c.filters with
    | none => false
    | some fs => if fs.isEmpty then false else rowMatchesAnyFilter row fs)

/-- `globalUsedPlayers.has(JSON.stringify(row))`: on our row embedding the
fingerprint comparison is structural row equality. -/
def usedHas (u : List Row) (r : Row) : Bool := decide (r ∈ u)

/-- `category.limit ? list.slice(0, category.limit) : list`: `limit` is
tested for truthiness (so `0` keeps everything), and `slice` clamps a
negative end relative to the length. -/
def applyLimit (limit : Option Int) (l : List Row) : List Row :=
  match limit with
  | none => l
  | some k =>
    if k = 0 then l
    else l.take (if 0 ≤ k then k.toNat else ((l.length : Int) + k).toNat)

/-- The players selected for one category given the rows and the current
global used set: the Open branch takes the repetition-filtered pool truncated
by `limit`; the filtered branch takes `matchingPlayers`, unrestricted when
`allowRepetition` is set, else restricted to unused rows and truncated. -/
def categoryPlayers (d u : List Row) (c : Category) : List Row :=
  if c.ctype = CType.Open then
    applyLimit c.limit
      (d.filter (fun row => if c.allowRepetition then true else !usedHas u row))
  else
    if c.allowRepetition then matchingPlayers d c
    else applyLimit c.limit ((matchingPlayers d c).filter (fun row => !usedHas u row))

/-- The global used set after one category: both non-repetition branches add
exactly the selected players, the repetition branches add nothing. -/
def nextUsed (d u : List Row) (c : Category) : List Row :=
  if c.allowRepetition then u else u ++ categoryPlayers d u c

/-- One iteration of the `categoryList.map` body of `applyFilters`: the
annotated category together with the updated used set. -/
def processCategory (d u : List Row) (c : Category) : Category × List Row :=
  ({ c with players := categoryPlayers d u c }, nextUsed d u c)

/-- The `categoryList.map` of `applyFilters`, with the mutable
`globalUsedPlayers` set threaded explicitly through the list. -/
def applyFiltersGo (d u : List Row) : List Category → List Category
  | [] => []
  | c :: rest =>
    (processCategory d u c).1 :: applyFiltersGo d (processCategory d u c).2 rest

/-- `applyFilters(allData, categoryList)`: the allocation engine, starting
from an empty used set. -/
def applyFilters (d : List Row) (cats : List Category) : List Category :=
  applyFiltersGo d [] cats

/-- The used set in force when the category at index `i` is processed. -/
def usedBefore (d u : List Row) (cats : List Category) : Nat → List Row
  | 0 => u
  | i + 1 =>
    match cats with
    | [] => u
    | c :: rest => usedBefore d (processCategory d u c).2 rest i

/-- The players assigned to the category at index `i` by `applyFilters`
(empty when the index is out of range). -/
def playersAt (d : List Row) (cats : List Category) (i : Nat) : List Row :=
  ((applyFilters d cats)[i]?.map Category.players).getD []

/-! Concrete data used to instantiate the theorems below: two rows sharing
the value `m` in column `x` and differing in column `n`, plus some
single-purpose rows, filters and categories. -/

/-- Row with `x = m`, `n = A`. -/
def rowA : Row := [("x", Value.vStr "m"), ("n", Value.vStr "A")]

/-- Row with `x = m`, `n = R`. -/
def rowR : Row := [("x", Value.vStr "m"), ("n", Value.vStr "R")]

/-- A row unrelated to the others. -/
def rowB : Row := [("p", Value.vStr "q")]

/-- Row whose `age` cell is the non-numeric string `abc`. -/
def rowAbc : Row := [("age", Value.vStr "abc")]

/-- Row whose `name` cell is `Alice`. -/
def rowAlice : Row := [("name", Value.vStr "Alice")]

/-- Filter `age greater 5`. -/
def fGt : Filter :=
  { filterColumn := "age", filterType := FilterType.greater,
    filterValue := some (Value.vStr "5") }

/-- Filter `name equal alice` (lower case, against the row value `Alice`). -/
def fEqAlice : Filter :=
  { filterColumn := "name", filterType := FilterType.equal,
    filterValue := some (Value.vStr "alice") }

/-- The single filter `x equal M` of `catXM`. -/
def fsXM : List Filter :=
  [{ filterColumn := "x", filterType := FilterType.equal,
     filterValue := some (Value.vStr "M") }]

/-- Non-Open category matching every row with `x = m` (case-insensitively),
no repetition, no limit. -/
def catXM : Category :=
  { id := "cx", name := "x is m", ctype := CType.Custom, filters := some fsXM,
    allowRepetition := false, priority := 0, limit := none, players := [] }

/-- Non-Open category matching every row with `n = r`, no repetition,
no limit. -/
def cNameR : Category :=
  { id := "cn", name := "n is r", ctype := CType.Custom,
    filters := some [{ filterColumn := "n", filterType := FilterType.equal,
                       filterValue := some (Value.vStr "r") }],
    allowRepetition := false, priority := 1, limit := none, players := [] }

/-- Like `catXM` but with `limit = 1`. -/
def cLim1 : Category :=
  { id := "cl", name := "x is m limited", ctype := CType.Custom, filters := some fsXM,
    allowRepetition := false, priority := 0, limit := some 1, players := [] }

/-- Like `catXM` but with repetition allowed and `limit = 1`. -/
def cRep : Category :=
  { id := "cr", name := "x is m repeating", ctype := CType.Custom, filters := some fsXM,
    allowRepetition := true, priority := 0, limit := some 1, players := [] }

/-- Open category, no limit, no repetition. -/
def cOpenAll : Category :=
  { id := "oa", name := "open all", ctype := CType.Open, filters := some [],
    allowRepetition := false, priority := 0, limit := none, players := [] }

/-- Open category, `limit = 1`, no repetition. -/
def cOpenLim : Category :=
  { id := "ol", name := "open one", ctype := CType.Open, filters := some [],
    allowRepetition := false, priority := 1, limit := some 1, players := [] }

/-- Non-Open category with an empty filter list. -/
def cNoFilters : Category :=
  { id := "ne", name := "no filters", ctype := CType.Custom, filters := some [],
    allowRepetition := false, priority := 0, limit := none, players := [] }

/-! Helper lemmas about the engine. -/

theorem applyFiltersGo_length (d u : List Row) (cats : List Category) :
    (applyFiltersGo d u cats).length = cats.length := by
  induction cats generalizing u with
  | nil => rfl
  | cons c rest ih => simp [applyFiltersGo, ih]

theorem applyFilters_length (d : List Row) (cats : List Category) :
    (applyFilters d cats).length = cats.length :=
  applyFiltersGo_length d [] cats

theorem usedBefore_zero (d u : List Row) (cats : List Category) :
    usedBefore d u cats 0 = u := by
  simp [usedBefore]

theorem usedBefore_nil (d u : List Row) (i : Nat) :
    usedBefore d u [] i = u := by
  cases i <;> simp [usedBefore]

theorem usedBefore_cons_succ (d u : List Row) (c : Category)
    (rest : List Category) (i : Nat) :
    usedBefore d u (c :: rest) (i + 1) =
      usedBefore d (processCategory d u c).2 rest i := by
  simp [usedBefore]

theorem usedBefore_succ (d u : List Row) (cats : List Category) (i : Nat)
    (c : Category) (h : cats[i]? = some c) :
    usedBefore d u cats (i + 1) = (processCategory d (usedBefore d u cats i) c).2 := by
  induction cats generalizing u i with
  | nil => simp at h
  | cons c0 rest ih =>
    cases i with
    | zero =>
      simp only [List.getElem?_cons_zero, Option.some_inj] at h
      subst h
      rw [usedBefore_cons_succ, usedBefore_zero, usedBefore_zero]
    | succ n =>
      simp only [List.getElem?_cons_succ] at h
      rw [usedBefore_cons_succ, usedBefore_cons_succ]
      exact ih _ n h

theorem applyFiltersGo_getElem (d u : List Row) (cats : List Category) (i : Nat)
    (c : Category) (h : cats[i]? = some c) :
    (applyFiltersGo d u cats)[i]? =
      some (processCategory d (usedBefore d u cats i) c).1 := by
  induction cats generalizing u i with
  | nil => simp at h
  | cons c0 rest ih =>
    cases i with
    | zero =>
      simp only [List.getElem?_cons_zero, Option.some_inj] at h
      subst h
      rw [usedBefore_zero]
      simp [applyFiltersGo]
    | succ n =>
      simp only [List.getElem?_cons_succ] at h
      rw [usedBefore_cons_succ]
      simpa [applyFiltersGo] using ih _ n h

theorem mem_applyLimit (limit : Option Int) (l : List Row) (r : Row)
    (h : r ∈ applyLimit limit l) : r ∈ l := by
  unfold applyLimit at h
  match limit with
  | none => exact h
  | some k =>
    simp only at h
    split at h
    · exact h
    · exact List.take_subset _ _ h

theorem mem_nextUsed_of_mem (d u : List Row) (c : Category) (r : Row)
    (h : r ∈ u) : r ∈ nextUsed d u c := by
  unfold nextUsed
  split
  · exact h
  · exact List.mem_append_left _ h

theorem mem_nextUsed_of_mem_players (d u : List Row) (c : Category) (r : Row)
    (hrep : c.allowRepetition = false) (h : r ∈ categoryPlayers d u c) :
    r ∈ nextUsed d u c := by
  unfold nextUsed
  rw [hrep]
  simp only [Bool.false_eq_true, if_false]
  exact List.mem_append_right _ h

theorem not_mem_categoryPlayers_of_used (d u : List Row) (c : Category) (r : Row)
    (hrep : c.allowRepetition = false) (hu : r ∈ u) :
    r ∉ categoryPlayers d u c := by
  intro hmem
  unfold categoryPlayers at hmem
  split at hmem
  · have hf := mem_applyLimit _ _ _ hmem
    rw [List.mem_filter, hrep] at hf
    simp [usedHas, hu] at hf
  · rw [hrep] at hmem
    simp only [Bool.false_eq_true, if_false] at hmem
    have hf := mem_applyLimit _ _ _ hmem
    rw [List.mem_filter] at hf
    simp [usedHas, hu] at hf

theorem mem_usedBefore_succ (d u : List Row) (cats : List Category) (i : Nat)
    (r : Row) (h : r ∈ usedBefore d u cats i) : r ∈ usedBefore d u cats (i + 1) := by
  induction cats generalizing u i with
  | nil => rw [usedBefore_nil]; rw [usedBefore_nil] at h; exact h
  | cons c0 rest ih =>
    cases i with
    | zero =>
      rw [usedBefore_zero] at h
      rw [usedBefore_cons_succ, usedBefore_zero]
      exact mem_nextUsed_of_mem d u c0 r h
    | succ n =>
      rw [usedBefore_cons_succ] at h
      rw [usedBefore_cons_succ]
      exact ih _ n h

theorem mem_usedBefore_mono (d u : List Row) (cats : List Category)
    (i j : Nat) (hij : i ≤ j) (r : Row) (h : r ∈ usedBefore d u cats i) :
    r ∈ usedBefore d u cats j := by
  induction j with
  | zero => cases Nat.le_zero.mp hij; exact h
  | succ n ih =>
    rcases Nat.lt_or_ge i (n + 1) with hlt | hge
    · exact mem_usedBefore_succ d u cats n r (ih (Nat.lt_succ_iff.mp hlt))
    · cases Nat.le_antisymm hij hge; exact h

theorem playersAt_eq (d : List Row) (cats : List Category) (i : Nat)
    (c : Category) (h : cats[i]? = some c) :
    playersAt d cats i = categoryPlayers d (usedBefore d [] cats i) c := by
  unfold playersAt applyFilters
  rw [applyFiltersGo_getElem d [] cats i c h]
  rfl

theorem applyLimit_nil (limit : Option Int) : applyLimit limit [] = [] := by
  cases limit with
  | none => rfl
  | some k => simp [applyLimit]

theorem applyLimit_none (l : List Row) : applyLimit none l = l := rfl

theorem applyLimit_some_pos (k : Int) (hk : 1 ≤ k) (l : List Row) :
    applyLimit (some k) l = l.take k.toNat := by
  simp only [applyLimit]
  rw [if_neg (by omega), if_pos (by omega)]

/-! Theorems for the individual claims. -/

/-- Claim C1: for every row list and every category with a non-empty filter list,
a row is in the category's `matchingPlayers` iff it is an input row on which
at least one non-wildcard filter evaluates true (OR across filters); and if
every filter of the category is a wildcard, `matchingPlayers` is empty. -/
theorem matchingPlayers_or_semantics (d : List Row) (c : Category)
    (fs : List Filter) (hf : c.filters = some fs) (hne : fs ≠ []) :
    (∀ row, row ∈ matchingPlayers d c ↔
      row ∈ d ∧ ∃ f ∈ fs, isEmptyFV f.filterValue = false ∧
        evalFilterCore row f = true) ∧
    ((∀ f ∈ fs, isEmptyFV f.filterValue = true) → matchingPlayers d c = []) := by
  have hie : fs.isEmpty = false := by
    cases fs with
    | nil => exact absurd rfl hne
    | cons f0 rest => rfl
  constructor
  · intro row
    unfold matchingPlayers
    rw [List.mem_filter]
    simp [hf, hie, rowMatchesAnyFilter]
  · intro hall
    unfold matchingPlayers
    rw [List.filter_eq_nil_iff]
    intro row hrow
    simp [hf, hie, rowMatchesAnyFilter]
    intro f hfmem
    simp [hall f hfmem]

/-- Witness for claim C1: the OR characterization evaluated at a concrete row list
and category. -/
theorem matchingPlayers_or_semantics_inst :
    rowR ∈ matchingPlayers [rowA, rowR] catXM ↔
      rowR ∈ [rowA, rowR] ∧ ∃ f ∈ fsXM, isEmptyFV f.filterValue = false ∧
        evalFilterCore rowR f = true :=
  (matchingPlayers_or_semantics [rowA, rowR] catXM fsXM rfl (by decide)).1 rowR

/-- Claim C2: within one `applyFilters` call, if an earlier category with
`allowRepetition = false` selects a row, no later category with
`allowRepetition = false` includes a row with the same fingerprint. -/
theorem applyFilters_no_cross_repetition (d : List Row) (cats : List Category)
    (i j : Nat) (hij : i < j) (ci cj : Category)
    (hci : cats[i]? = some ci) (hcj : cats[j]? = some cj)
    (hri : ci.allowRepetition = false) (hrj : cj.allowRepetition = false)
    (r : Row) (hmem : r ∈ playersAt d cats i) : r ∉ playersAt d cats j := by
  rw [playersAt_eq d cats i ci hci] at hmem
  rw [playersAt_eq d cats j cj hcj]
  have h1 : r ∈ usedBefore d [] cats (i + 1) := by
    rw [usedBefore_succ d [] cats i ci hci]
    exact mem_nextUsed_of_mem_players d _ ci r hri hmem
  have h2 : r ∈ usedBefore d [] cats j :=
    mem_usedBefore_mono d [] cats (i + 1) j hij r h1
  exact not_mem_categoryPlayers_of_used d _ cj r hrj h2

/-- Witness for claim C2: the shared row `rowR` goes to the first of two overlapping
non-repeating categories and not to the second. -/
theorem applyFilters_no_cross_repetition_inst :
    rowR ∉ playersAt [rowA, rowR] [catXM, cNameR] 1 :=
  applyFilters_no_cross_repetition [rowA, rowR] [catXM, cNameR] 0 1 (by decide)
    catXM cNameR rfl rfl rfl rfl rowR (by decide)

/-- Claim C3: `applyFilters` returns a list of the same length as the input
category list, and the entry at each position is the input category at that
position with only its `players` field replaced (rows are values in this
embedding, so the input row list is unchanged by construction). -/
theorem applyFilters_length_and_shape (d : List Row) (cats : List Category) :
    (applyFilters d cats).length = cats.length ∧
    ∀ (i : Nat) (c : Category), cats[i]? = some c →
      (applyFilters d cats)[i]? = some { c with players := playersAt d cats i } := by
  refine ⟨applyFilters_length d cats, ?_⟩
  intro i c hc
  unfold applyFilters
  rw [applyFiltersGo_getElem d [] cats i c hc, playersAt_eq d cats i c hc]
  rfl

/-- Witness for claim C3: shape of the output at a concrete input. -/
theorem applyFilters_length_and_shape_inst :
    (applyFilters [rowA] [catXM])[0]? =
      some { catXM with players := playersAt [rowA] [catXM] 0 } :=
  (applyFilters_length_and_shape [rowA] [catXM]).2 0 catXM rfl

/-- Counterexample to claim C4 as stated: with `R = [rowB]` and an unlimited non-repeating Open
category first, the Open category `cOpenLim` with `limit = 1` and
`1 ≤ |R| = 1` ends up with zero players, not exactly `1`: the claim's
length-`k` guarantee fails once earlier categories shrink the pool below
`k`. -/
theorem openCategory_limit_length_cex :
    cOpenLim.ctype = CType.Open ∧ cOpenLim.allowRepetition = false ∧
    cOpenLim.limit = some 1 ∧ (1 : Nat) ≤ ([rowB] : List Row).length ∧
    (applyFilters [rowB] [cOpenAll, cOpenLim]).map
      (fun c => c.players.length) = [1, 0] := by
  refine ⟨rfl, rfl, rfl, by decide, by decide⟩

/-- Claim C4 as amended: for an Open non-repeating category with `limit = k ≥ 1`
processed against used set `u`, its players are the first `k` rows, in row
order, of the pool of rows not yet used; the length is exactly `k` whenever
`k` does not exceed the pool size (in particular whenever the pool is the
whole row list). -/
theorem openCategory_limit_take_pool (d u : List Row) (c : Category)
    (rest : List Category) (k : Int) (ht : c.ctype = CType.Open)
    (hr : c.allowRepetition = false) (hl : c.limit = some k) (hk : 1 ≤ k) :
    ∃ c2, (applyFiltersGo d u (c :: rest))[0]? = some c2 ∧
      c2.players = (d.filter (fun row => !usedHas u row)).take k.toNat ∧
      (k.toNat ≤ (d.filter (fun row => !usedHas u row)).length →
        c2.players.length = k.toNat) := by
  have hp : categoryPlayers d u c =
      (d.filter (fun row => !usedHas u row)).take k.toNat := by
    unfold categoryPlayers
    rw [if_pos ht, hl, applyLimit_some_pos k hk]
    simp [hr]
  refine ⟨(processCategory d u c).1, by simp [applyFiltersGo], hp, ?_⟩
  intro hlen
  show (categoryPlayers d u c).length = k.toNat
  rw [hp, List.length_take, Nat.min_eq_left hlen]

/-- Witness for claim C4: amended statement at a concrete input where the pool is
large enough. -/
theorem openCategory_limit_take_pool_inst :
    ∃ c2, (applyFiltersGo [rowA, rowR] [] (cOpenLim :: []))[0]? = some c2 ∧
      c2.players =
        (([rowA, rowR] : List Row).filter (fun row => !usedHas [] row)).take
          (1 : Int).toNat ∧
      ((1 : Int).toNat ≤
          (([rowA, rowR] : List Row).filter (fun row => !usedHas [] row)).length →
        c2.players.length = (1 : Int).toNat) :=
  openCategory_limit_take_pool [rowA, rowR] [] cOpenLim [] 1 rfl rfl rfl
    (by decide)

/-- Claim C5: a non-Open category with `allowRepetition = true` is assigned exactly
its `matchingPlayers`, whatever the used set `u` is (so rows used by earlier
categories are not excluded) and whatever `limit` is (no truncation). -/
theorem allowRepetition_players_eq_matching (d u : List Row) (c : Category)
    (rest : List Category) (ht : c.ctype ≠ CType.Open)
    (hr : c.allowRepetition = true) :
    (applyFiltersGo d u (c :: rest))[0]? =
      some { c with players := matchingPlayers d c } := by
  have hcp : categoryPlayers d u c = matchingPlayers d c := by
    unfold categoryPlayers
    rw [if_neg ht, if_pos hr]
  simp [applyFiltersGo, processCategory, hcp]

/-- Witness for claim C5: category with repetition allowed, `limit = 1`, two matching
rows, one of them already used: both still assigned. -/
theorem allowRepetition_players_eq_matching_inst :
    (applyFiltersGo [rowA, rowR] [rowR] (cRep :: []))[0]? =
      some { cRep with players := matchingPlayers [rowA, rowR] cRep } :=
  allowRepetition_players_eq_matching [rowA, rowR] [rowR] cRep []
    (by decide) rfl

/-- Claim C6: a `greater` or `less` filter is a total function (the embedding is a
Lean function, so evaluation cannot throw), and whenever the row's value in
the filter column coerces to NaN the filter evaluates false. -/
theorem numeric_filter_nan_false (row : Row) (f : Filter)
    (ht : f.filterType = FilterType.greater ∨ f.filterType = FilterType.less)
    (hn : jsNumber (lookupRow row f.filterColumn) = JsNum.nan) :
    evalFilterCore row f = false := by
  unfold evalFilterCore
  rcases ht with h | h <;> rw [h] <;> rw [hn] <;>
    cases jsNumber f.filterValue <;> rfl

/-- Witness for claim C6: `age greater 5` on a row whose `age` is the string `abc`. -/
theorem numeric_filter_nan_false_inst : evalFilterCore rowAbc fGt = false :=
  numeric_filter_nan_false rowAbc fGt (Or.inl rfl) (by decide)

/-- Claim C7: for a non-wildcard filter, `equal` matches iff the stringified row
value and filter value are equal after lower-casing, and `contains` matches
iff the lower-cased filter value occurs as a substring of the lower-cased
row value. -/
theorem equal_contains_case_insensitive (row : Row) (f : Filter)
    (hv : isEmptyFV f.filterValue = false) :
    (f.filterType = FilterType.equal →
      (rowMatchesAnyFilter row [f] = true ↔
        strToLower (jsString (lookupRow row f.filterColumn)) =
          strToLower (jsString f.filterValue))) ∧
    (f.filterType = FilterType.contains →
      (rowMatchesAnyFilter row [f] = true ↔
        (strToLower (jsString f.filterValue)).toList <:+:
          (strToLower (jsString (lookupRow row f.filterColumn))).toList)) := by
  have hm : rowMatchesAnyFilter row [f] = evalFilterCore row f := by
    simp [rowMatchesAnyFilter, hv]
  constructor
  · intro he
    rw [hm]
    unfold evalFilterCore
    rw [he]
    simp [beq_iff_eq]
  · intro hc
    rw [hm]
    unfold evalFilterCore
    rw [hc]
    simp [jsIncludes]

/-- Witness for claim C7: the row value `Alice` matches the filter `equal alice`. -/
theorem equal_contains_case_insensitive_inst :
    rowMatchesAnyFilter rowAlice [fEqAlice] = true ↔
      strToLower (jsString (lookupRow rowAlice fEqAlice.filterColumn)) =
        strToLower (jsString fEqAlice.filterValue) :=
  (equal_contains_case_insensitive rowAlice fEqAlice (by decide)).1 rfl

/-- Claim C8: a category that is not Open and whose filter list is missing or
empty receives an empty `players` list, and `applyFilters` still returns
normally with one output per input category. -/
theorem empty_filters_empty_players (d : List Row) (cats : List Category)
    (i : Nat) (c : Category) (hc : cats[i]? = some c)
    (ht : c.ctype ≠ CType.Open) (hf : c.filters = none ∨ c.filters = some []) :
    playersAt d cats i = [] ∧ (applyFilters d cats).length = cats.length := by
  refine ⟨?_, applyFilters_length d cats⟩
  rw [playersAt_eq d cats i c hc]
  have hm : matchingPlayers d c = [] := by
    unfold matchingPlayers
    rcases hf with h | h <;> simp [h]
  unfold categoryPlayers
  rw [if_neg ht]
  split
  · exact hm
  · rw [hm]
    simp [applyLimit_nil]

/-- Witness for claim C8: an empty-filters Custom category in a one-category list. -/
theorem empty_filters_empty_players_inst :
    playersAt [rowA] [cNoFilters] 0 = [] ∧
    (applyFilters [rowA] [cNoFilters]).length = ([cNoFilters] : List Category).length :=
  empty_filters_empty_players [rowA] [cNoFilters] 0 cNoFilters rfl
    (by decide) (Or.inr rfl)

/-- Counterexample to claim C9 as stated: `cLim1` (limit 1) and `cNameR` both have
`allowRepetition = false` and both match `rowR`, yet
`applyFilters [rowA, rowR] [cLim1, cNameR]` does not assign `rowR` to the
first category (its single slot goes to `rowA`), contradicting the claim
that the shared row always goes to the earlier of the two categories. -/
theorem reorder_flip_cex :
    rowR ∈ matchingPlayers [rowA, rowR] cLim1 ∧
    rowR ∈ matchingPlayers [rowA, rowR] cNameR ∧
    cLim1.allowRepetition = false ∧ cNameR.allowRepetition = false ∧
    rowR ∉ playersAt [rowA, rowR] [cLim1, cNameR] 0 := by
  refine ⟨by decide, by decide, rfl, rfl, by decide⟩

theorem pairFirstTakes (R : List Row) (r : Row) (ca cb : Category)
    (hat : ca.ctype ≠ CType.Open) (hbt : cb.ctype ≠ CType.Open)
    (har : ca.allowRepetition = false) (hbr : cb.allowRepetition = false)
    (hal : ca.limit = none) (hma : r ∈ matchingPlayers R ca) :
    r ∈ playersAt R [ca, cb] 0 ∧ r ∉ playersAt R [ca, cb] 1 := by
  have hcp : categoryPlayers R [] ca = matchingPlayers R ca := by
    unfold categoryPlayers
    rw [if_neg hat, if_neg (by simp [har]), hal, applyLimit_none]
    apply List.filter_eq_self.mpr
    intro a ha
    simp [usedHas]
  have hu1 : r ∈ nextUsed R [] ca := by
    unfold nextUsed
    rw [if_neg (by simp [har]), hcp]
    simpa using hma
  constructor
  · rw [playersAt_eq R [ca, cb] 0 ca rfl, usedBefore_zero, hcp]
    exact hma
  · rw [playersAt_eq R [ca, cb] 1 cb rfl, usedBefore_cons_succ, usedBefore_zero]
    exact not_mem_categoryPlayers_of_used R _ cb r hbr hu1

/-- Claim C9 as amended: for two non-Open categories with `allowRepetition = false`
and no `limit`, both matching row `r`, the first category of the pair always
receives `r` and the second never does — so swapping the pair flips which
category receives the shared row.  (The counterexample forces the no-`limit`
hypothesis: with a `limit`, the earlier category can run out of slots before
reaching `r`.) -/
theorem reorder_flip_no_limit (R : List Row) (r : Row) (c1 c2 : Category)
    (h1t : c1.ctype ≠ CType.Open) (h2t : c2.ctype ≠ CType.Open)
    (h1r : c1.allowRepetition = false) (h2r : c2.allowRepetition = false)
    (h1l : c1.limit = none) (h2l : c2.limit = none)
    (hm1 : r ∈ matchingPlayers R c1) (hm2 : r ∈ matchingPlayers R c2) :
    (r ∈ playersAt R [c1, c2] 0 ∧ r ∉ playersAt R [c1, c2] 1) ∧
    (r ∈ playersAt R [c2, c1] 0 ∧ r ∉ playersAt R [c2, c1] 1) :=
  ⟨pairFirstTakes R r c1 c2 h1t h2t h1r h2r h1l hm1,
   pairFirstTakes R r c2 c1 h2t h1t h2r h1r h2l hm2⟩

/-- Witness for claim C9: the amended flip property at a concrete pair of
no-limit categories sharing `rowR`. -/
theorem reorder_flip_no_limit_inst :
    (rowR ∈ playersAt [rowA, rowR] [catXM, cNameR] 0 ∧
      rowR ∉ playersAt [rowA, rowR] [catXM, cNameR] 1) ∧
    (rowR ∈ playersAt [rowA, rowR] [cNameR, catXM] 0 ∧
      rowR ∉ playersAt [rowA, rowR] [cNameR, catXM] 1) :=
  reorder_flip_no_limit [rowA, rowR] rowR catXM cNameR (by decide) (by decide)
    rfl rfl rfl rfl (by decide) (by decide)

/-- Claim C10: every field of an output category other than `players` (id, name,
type, filters, allowRepetition, priority, limit) equals the corresponding
field of the same-position input category. -/
theorem applyFilters_preserves_fields (d : List Row) (cats : List Category)
    (i : Nat) (c : Category) (hc : cats[i]? = some c) :
    (applyFilters d cats)[i]?.map Category.id = some c.id ∧
    (applyFilters d cats)[i]?.map Category.name = some c.name ∧
    (applyFilters d cats)[i]?.map Category.ctype = some c.ctype ∧
    (applyFilters d cats)[i]?.map Category.filters = some c.filters ∧
    (applyFilters d cats)[i]?.map Category.allowRepetition =
      some c.allowRepetition ∧
    (applyFilters d cats)[i]?.map Category.priority = some c.priority ∧
    (applyFilters d cats)[i]?.map Category.limit = some c.limit := by
  unfold applyFilters
  rw [applyFiltersGo_getElem d [] cats i c hc]
  exact ⟨rfl, rfl, rfl, rfl, rfl, rfl, rfl⟩

/-- Witness for claim C10: field preservation at a concrete input. -/
theorem applyFilters_preserves_fields_inst :
    (applyFilters [rowA] [cLim1])[0]?.map Category.id = some cLim1.id ∧
    (applyFilters [rowA] [cLim1])[0]?.map Category.name = some cLim1.name ∧
    (applyFilters [rowA] [cLim1])[0]?.map Category.ctype = some cLim1.ctype ∧
    (applyFilters [rowA] [cLim1])[0]?.map Category.filters = some cLim1.filters ∧
    (applyFilters [rowA] [cLim1])[0]?.map Category.allowRepetition =
      some cLim1.allowRepetition ∧
    (applyFilters [rowA] [cLim1])[0]?.map Category.priority = some cLim1.priority ∧
    (applyFilters [rowA] [cLim1])[0]?.map Category.limit = some cLim1.limit :=
  applyFilters_preserves_fields [rowA] [cLim1] 0 cLim1 rfl

end Tournament
